import Mathlib

/-!
Shallow embedding of the `conf` package's strict-environment auditor
(`env_strict.go`) and of the hybrid validation dispatch (`validator`
package), together with proofs of the specified properties.

Go strings are modelled as Lean `String`; the process environment is an
explicit function `String → String` (Go's `os.Getenv` returns `""` for an
unset variable), so every definition is a pure function of its inputs.
-/

/-- Result of `strings.ToUpper` (character mapping `Char.toUpper`, which
matches Go on the ASCII letters appearing in configuration keys). -/
def goToUpper (s : String) : String :=
  String.mk (s.data.map Char.toUpper)

/-- Result of `strings.ToLower` (character mapping `Char.toLower`). -/
def goToLower (s : String) : String :=
  String.mk (s.data.map Char.toLower)

/-- Characters of a string before the first comma: the character-list level
of `strings.SplitN(tag, ",", 2)[0]`. -/
def beforeCommaChars : List Char → List Char
  | [] => []
  | c :: cs => if c = ',' then [] else c :: beforeCommaChars cs

/-- Models `strings.SplitN(tag, ",", 2)[0]`: the portion of a tag value
before the first comma (the whole value when there is no comma). -/
def nameBeforeComma (s : String) : String :=
  String.mk (beforeCommaChars s.data)

/-- The struct-tag keys consulted by `env_strict.go` and by the validator's
tag-name callback. `reflect.StructTag.Get` returns `""` for an absent key,
so each tag is a plain string with `""` standing for "absent". -/
structure GoTag where
  mapstructure : String
  yaml : String
  json : String
  toml : String
  env : String
  deriving DecidableEq, Repr

mutual

/-- A populated Go configuration value as seen by `recursiveEnvCheck`.
Only the distinctions the walk makes are kept: a struct value, a pointer
whose element type is a struct (nil or not — `derefType.Kind()` is
`reflect.Struct` either way), and every other value (`leaf`), which the
walk never enters. A pointer to a non-struct behaves exactly like `leaf`
(after one `Elem()` its kind is still not `reflect.Struct`). -/
inductive GoValue : Type where
  | leaf : GoValue
  | ptrStructNil : GoValue
  | ptrStructSome : List GoField → GoValue
  | structVal : List GoField → GoValue

/-- One struct field: its Go identifier (`reflect.StructField.Name`),
whether it is exported, its tag set, and its value. -/
inductive GoField : Type where
  | mk : String → Bool → GoTag → GoValue → GoField

end

/-- Field identifier (`reflect.StructField.Name`). -/
def GoField.name : GoField → String
  | .mk n _ _ _ => n

/-- Whether the field is exported (`reflect.StructField.IsExported`). -/
def GoField.exported : GoField → Bool
  | .mk _ e _ _ => e

/-- The field's struct tags. -/
def GoField.tag : GoField → GoTag
  | .mk _ _ t _ => t

/-- The field's populated value. -/
def GoField.value : GoField → GoValue
  | .mk _ _ _ v => v

/-- One numbered block of `resolveKeyName` (`env_strict.go`): when the tag
value is nonempty, the name before the first comma decides — `"-"` makes
the function return `""` (explicitly ignored), any other nonempty name is
returned; an empty name falls through to the next family (`none`). -/
def tagFamilyName (tag : String) : Option String :=
  if tag ≠ "" then
    let name := nameBeforeComma tag
    if name = "-" then some ""
    else if name ≠ "" then some name
    else none
  else none

/-- Embedding of `resolveKeyName` (`env_strict.go` lines 32-79): priority
mapstructure > yaml > json > toml > raw field name; the result `""` encodes
"explicitly ignored". -/
def resolveKeyName (field : GoField) : String :=
  (tagFamilyName field.tag.mapstructure).getD
    ((tagFamilyName field.tag.yaml).getD
      ((tagFamilyName field.tag.json).getD
        ((tagFamilyName field.tag.toml).getD field.name)))

/-- Key composition from `recursiveEnvCheck` (`env_strict.go` lines
112-118): `strings.ToUpper(pre + "_" + mapKey)` under a nonempty
accumulated key, else `strings.ToUpper(mapKey)`. -/
def composeKey (pre mapKey : String) : String :=
  if pre ≠ "" then goToUpper (pre ++ "_" ++ mapKey) else goToUpper mapKey

/-- Whether `derefType.Kind() == reflect.Struct` after one pointer
dereference of the field's type (`env_strict.go` lines 120-126): a nil
`*Struct` still has struct element type, so it is recursed into. -/
def isStructKind : GoValue → Bool
  | .leaf => false
  | .ptrStructNil => true
  | .ptrStructSome _ => true
  | .structVal _ => true

/-- The data carried by the `fmt.Errorf` violation of `env_strict.go` line
138: the raw field identifier (`field.Name`), the resolved key (`mapKey`)
and the fully qualified uppercase lookup name (`currentKey`). -/
structure Violation where
  fieldName : String
  tagKey : String
  envKey : String
  deriving DecidableEq, Repr

mutual

/-- Embedding of `recursiveEnvCheck` (`env_strict.go` lines 81-143): one
pointer dereference with a nil short-cut, then the field loop on structs;
any non-struct value returns `none` (no violation). `getenv` models
`os.Getenv`. -/
def recursiveEnvCheck (getenv : String → String) (pre : String) :
    GoValue → Option Violation
  | .leaf => none
  | .ptrStructNil => none
  | .ptrStructSome fs => checkFields getenv pre fs
  | .structVal fs => checkFields getenv pre fs

/-- The field loop of `recursiveEnvCheck` (`env_strict.go` lines 95-141):
skip unexported fields, skip ignored keys, recurse into struct-kind fields
with the composed key, check `env:"strict"` leaves, short-circuit on the
first violation. -/
def checkFields (getenv : String → String) (pre : String) :
    List GoField → Option Violation
  | [] => none
  | .mk fname ex tag value :: rest =>
    if ex = false then checkFields getenv pre rest
    else
      if resolveKeyName (.mk fname ex tag value) = "" then
        checkFields getenv pre rest
      else
        if isStructKind value then
          match
            recursiveEnvCheck getenv
              (composeKey pre (resolveKeyName (.mk fname ex tag value)))
              value with
          | some v => some v
          | none => checkFields getenv pre rest
        else
          if tag.env = "strict" then
            if getenv
                (composeKey pre
                  (resolveKeyName (.mk fname ex tag value))) = "" then
              some ⟨fname, resolveKeyName (.mk fname ex tag value),
                composeKey pre (resolveKeyName (.mk fname ex tag value))⟩
            else checkFields getenv pre rest
          else checkFields getenv pre rest

end

/-- Top-level dereference of `checkEnvStrict` (`env_strict.go` lines
22-25): `reflect.Value.Elem()` of a non-nil pointer yields the struct; on a
nil pointer it yields the zero `Value`, whose kind is neither `Ptr` nor
`Struct`, so the walk treats it like any other non-struct (`leaf`). -/
def derefTop : GoValue → GoValue
  | .ptrStructSome fs => .structVal fs
  | .ptrStructNil => .leaf
  | v => v

/-- The deployment-mode read at the start of `checkEnvStrict`
(`env_strict.go` lines 12-16): `GO_ENV`, falling back to `APP_ENV` when
`GO_ENV` is empty, lowercased. -/
def deploymentMode (getenv : String → String) : String :=
  let env := getenv "GO_ENV"
  let env := if env = "" then getenv "APP_ENV" else env
  goToLower env

/-- Embedding of `checkEnvStrict` (`env_strict.go` lines 11-28): a no-op
unless the deployment mode is `production` or `prod`, else the recursive
walk rooted at the dereferenced configuration value with the application
name as initial key. -/
def checkEnvStrict (getenv : String → String) (appName : String)
    (cfg : GoValue) : Option Violation :=
  let env := deploymentMode getenv
  if env ≠ "production" ∧ env ≠ "prod" then none
  else recursiveEnvCheck getenv appName (derefTop cfg)

mutual

/-- Modelled from the spec: the list of ALL strict-environment violations
of a value, in declaration order, mirroring the walk of
`recursiveEnvCheck` but accumulating instead of short-circuiting. Used to
state that the audit returns exactly the first violation in declaration
order. -/
def collectViolations (getenv : String → String) (pre : String) :
    GoValue → List Violation
  | .leaf => []
  | .ptrStructNil => []
  | .ptrStructSome fs => collectFieldViolations getenv pre fs
  | .structVal fs => collectFieldViolations getenv pre fs

/-- Modelled from the spec: all violations of a field list in declaration
order (companion of `collectViolations`). -/
def collectFieldViolations (getenv : String → String) (pre : String) :
    List GoField → List Violation
  | [] => []
  | .mk fname ex tag value :: rest =>
    if ex = false then collectFieldViolations getenv pre rest
    else
      if resolveKeyName (.mk fname ex tag value) = "" then
        collectFieldViolations getenv pre rest
      else
        if isStructKind value then
          collectViolations getenv
              (composeKey pre (resolveKeyName (.mk fname ex tag value)))
              value
            ++ collectFieldViolations getenv pre rest
        else
          if tag.env = "strict" then
            if getenv
                (composeKey pre
                  (resolveKeyName (.mk fname ex tag value))) = "" then
              ⟨fname, resolveKeyName (.mk fname ex tag value),
                  composeKey pre (resolveKeyName (.mk fname ex tag value))⟩
                :: collectFieldViolations getenv pre rest
            else collectFieldViolations getenv pre rest
          else collectFieldViolations getenv pre rest

end

/-- Modelled from the spec: the highest-priority naming annotation present
on a field, in the fixed family order mapstructure, yaml, json, toml
(`none` when no naming annotation is present). -/
def firstNamingTag (t : GoTag) : Option String :=
  if t.mapstructure ≠ "" then some t.mapstructure
  else if t.yaml ≠ "" then some t.yaml
  else if t.json ≠ "" then some t.json
  else if t.toml ≠ "" then some t.toml
  else none

/-- Priority 4 block of the tag-name callback that `validator.New`
registers with `RegisterTagNameFunc` (validator package): the `toml`
family, falling back to the raw field name. -/
def tagNameToml (fld : GoField) : String :=
  if fld.tag.toml ≠ "" then
    let name := nameBeforeComma fld.tag.toml
    if name = "-" then ""
    else if name ≠ "" then name
    else fld.name
  else fld.name

/-- Priority 3 block of the registered tag-name callback: the `json`
family, falling through to `toml`. -/
def tagNameJson (fld : GoField) : String :=
  if fld.tag.json ≠ "" then
    let name := nameBeforeComma fld.tag.json
    if name = "-" then ""
    else if name ≠ "" then name
    else tagNameToml fld
  else tagNameToml fld

/-- Priority 2 block of the registered tag-name callback: the `yaml`
family, falling through to `json`. -/
def tagNameYaml (fld : GoField) : String :=
  if fld.tag.yaml ≠ "" then
    let name := nameBeforeComma fld.tag.yaml
    if name = "-" then ""
    else if name ≠ "" then name
    else tagNameJson fld
  else tagNameJson fld

/-- Embedding of the anonymous function passed to `RegisterTagNameFunc`
inside `validator.New`: priority 1 is `mapstructure`, then the
`yaml`/`json`/`toml` blocks, then the raw field name; `""` encodes the
ignored (`"-"`) outcome. -/
def tagNameFunc (fld : GoField) : String :=
  if fld.tag.mapstructure ≠ "" then
    let name := nameBeforeComma fld.tag.mapstructure
    if name = "-" then ""
    else if name ≠ "" then name
    else tagNameYaml fld
  else tagNameYaml fld

/-- A configuration instance as seen by `Validator.Validate`: when the
instance implements `SelfValidatable`, `selfResult` is `some r` with `r`
the error its `Validate()` method returns (`none` for a nil error);
otherwise `selfResult` is `none`. -/
structure ConfigInstance where
  selfResult : Option (Option String)

/-- Embedding of the dispatch in `Validator.Validate` (validator package):
the `SelfValidatable` type assertion decides the path — a self-validating
instance returns its own `Validate()` result verbatim, anything else is
handed to the declarative rule evaluator. The evaluator (the external
`go-playground/validator` library call plus error translation) is the
abstract argument `ruleEval`. -/
def validatorDispatch (ruleEval : ConfigInstance → Option String)
    (i : ConfigInstance) : Option String :=
  match i.selfResult with
  | some r => r
  | none => ruleEval i

/-- Environment fixture: production via `GO_ENV`, nothing else set. -/
def prodEnvUnset : String → String := fun n =>
  if n = "GO_ENV" then "production" else ""

/-- Environment fixture of the repository test `TestLoad_StrictEnv /
Production With Env`: production with `MYAPP_PASSWORD` set. -/
def prodEnvSet : String → String := fun n =>
  if n = "GO_ENV" then "production"
  else if n = "MYAPP_PASSWORD" then "secret123"
  else ""

/-- Environment fixture: `GO_ENV=DEV` (uppercase, to exercise the
case-insensitive comparison), nothing else set. -/
def devEnv : String → String := fun n =>
  if n = "GO_ENV" then "DEV" else ""

/-- Environment fixture: `GO_ENV=dev` while `APP_ENV=production`
(`GO_ENV` is nonempty, so `APP_ENV` must be ignored). -/
def devOverrideEnv : String → String := fun n =>
  if n = "GO_ENV" then "dev"
  else if n = "APP_ENV" then "production"
  else ""

/-- Environment fixture of the repository test `TestStrictEnv_Complex /
Missing Nested Ptr Env`: production, `MYAPP_PASSWORD` set,
`MYAPP_SUB_API_KEY` unset. -/
def prodSubEnv : String → String := fun n =>
  if n = "GO_ENV" then "production"
  else if n = "MYAPP_PASSWORD" then "pass"
  else ""

/-- Schema with a single environment-mandatory leaf, the spec's
StrictAuditor example: `Password string` with `mapstructure:"password"`
and `env:"strict"`. -/
def passwordOnlyCfg : GoValue :=
  .structVal [.mk "Password" true ⟨"password", "", "", "", "strict"⟩ .leaf]

/-- The repository test value `&StrictConfig{Sub: &StrictSub{}}`:
an outer pointer, a `password,omitempty` strict leaf, and a non-nil
pointer sub-struct whose `ApiKey` leaf is strict. -/
def strictConfigValue : GoValue :=
  .ptrStructSome
    [.mk "Password" true ⟨"password,omitempty", "", "", "", "strict"⟩ .leaf,
     .mk "Sub" true ⟨"sub", "", "", "", ""⟩
       (.ptrStructSome
         [.mk "ApiKey" true ⟨"api_key", "", "", "", "strict"⟩ .leaf])]

/-- Field whose `mapstructure` tag carries only options
(`mapstructure:",omitempty" yaml:"db_port"`). -/
def optionsOnlyField : GoField :=
  .mk "Port" true ⟨",omitempty", "db_port", "", "", ""⟩ .leaf

/-- The `User` field of the repository test type `MultiTagConfig`:
`mapstructure:"db_user" json:"user" yaml:"u" env:"strict"`. -/
def multiTagUserField : GoField :=
  .mk "User" true ⟨"db_user", "u", "user", "", "strict"⟩ .leaf

/-- Field whose highest-priority naming annotation is the ignore sentinel
with options (`mapstructure:"-,omitempty"`), with lower-priority
annotations present. -/
def dashField : GoField :=
  .mk "Secret" true ⟨"-,omitempty", "y", "j", "", "strict"⟩ .leaf

/-- Field with no naming annotations at all. -/
def noTagField : GoField :=
  .mk "Debug" true ⟨"", "", "", "", ""⟩ .leaf

/-- A self-validating instance whose `Validate()` method fails (the
repository test type `FastConfig` with a short `api_key`). -/
def selfValidCfg : ConfigInstance :=
  ⟨some (some "api_key must be 32 chars")⟩

/-- A declarative rule evaluator that reports a violation on every
instance. -/
def failingRuleEval : ConfigInstance → Option String :=
  fun _ => some "declarative violation"

/-- A declarative rule evaluator that accepts every instance. -/
def okRuleEval : ConfigInstance → Option String :=
  fun _ => none

/-- The audit result is the head of the declaration-order violation list:
`recursiveEnvCheck` short-circuits on the first violation. -/
theorem recursiveEnvCheck_eq_head (getenv : String → String)
    (pre : String) (v : GoValue) :
    recursiveEnvCheck getenv pre v
      = (collectViolations getenv pre v).head? := by
  induction pre, v using recursiveEnvCheck.induct getenv
    (motive_2 := fun pre fs =>
      checkFields getenv pre fs
        = (collectFieldViolations getenv pre fs).head?) <;>
    simp_all [recursiveEnvCheck, checkFields, collectViolations,
      collectFieldViolations]
  case case8 ih _ =>
    cases h : collectViolations getenv _ _ <;> simp_all
  case case9 ih _ =>
    cases h : collectViolations getenv _ _ <;> simp_all

/-- Field-list version of `recursiveEnvCheck_eq_head`. -/
theorem checkFields_eq_head (getenv : String → String)
    (pre : String) (fs : List GoField) :
    checkFields getenv pre fs
      = (collectFieldViolations getenv pre fs).head? := by
  induction pre, fs using checkFields.induct getenv
    (motive_1 := fun pre v =>
      recursiveEnvCheck getenv pre v
        = (collectViolations getenv pre v).head?) <;>
    simp_all [recursiveEnvCheck, checkFields, collectViolations,
      collectFieldViolations]
  case case8 ih _ =>
    cases h : collectViolations getenv _ _ <;> simp_all
  case case9 ih _ =>
    cases h : collectViolations getenv _ _ <;> simp_all

/-- Every collected violation records a qualified key whose environment
lookup came back empty. -/
theorem collectViolations_envKey (getenv : String → String)
    (pre : String) (v : GoValue) :
    ∀ viol ∈ collectViolations getenv pre v, getenv viol.envKey = "" := by
  induction pre, v using collectViolations.induct getenv
    (motive_2 := fun pre fs =>
      ∀ viol ∈ collectFieldViolations getenv pre fs,
        getenv viol.envKey = "") <;>
    simp_all [collectViolations, collectFieldViolations, Violation.envKey]
  all_goals
    first
      | (rename_i ih2 ih1 hmem
         rcases hmem with hmem | hmem
         · exact ih2 _ hmem
         · exact ih1 _ hmem)
      | (rename_i hempty ih1 hmem
         rcases hmem with rfl | hmem
         · simpa using hempty
         · exact ih1 _ hmem)

/-- Value of `Char.ofNat` on a valid codepoint. -/
theorem char_toNat_ofNat (n : Nat) (h : n.isValidChar) :
    (Char.ofNat n).toNat = n := by
  unfold Char.ofNat
  rw [dif_pos h]
  rfl

/-- Uppercasing a character twice is the same as uppercasing it once. -/
theorem char_toUpper_idem (c : Char) : c.toUpper.toUpper = c.toUpper := by
  have key : ∀ d : Char, d.toNat < 97 → d.toUpper = d := by
    intro d hd
    simp only [Char.toUpper]
    rw [if_neg]
    omega
  by_cases h : c.toNat ≥ 97 ∧ c.toNat ≤ 122
  · have h1 : c.toUpper = Char.ofNat (c.toNat - 32) := by
      simp only [Char.toUpper]
      rw [if_pos h]
    have hv : Nat.isValidChar (c.toNat - 32) := Or.inl (by omega)
    rw [h1]
    apply key
    rw [char_toNat_ofNat _ hv]
    omega
  · have h1 : c.toUpper = c := by
      simp only [Char.toUpper]
      rw [if_neg h]
    rw [h1, h1]

/-- Uppercasing distributes over string concatenation. -/
theorem goToUpper_append (a b : String) :
    goToUpper (a ++ b) = goToUpper a ++ goToUpper b := by
  apply String.ext
  simp [goToUpper, String.data_append]

/-- Uppercasing is idempotent on strings. -/
theorem goToUpper_goToUpper (s : String) :
    goToUpper (goToUpper s) = goToUpper s := by
  apply String.ext
  simp [goToUpper, List.map_map, Function.comp_def, char_toUpper_idem]

/-- Uppercasing a nonempty string yields a nonempty string. -/
theorem goToUpper_ne_empty {s : String} (h : s ≠ "") : goToUpper s ≠ "" := by
  intro hc
  apply h
  apply String.ext
  have hd := congrArg String.data hc
  have he : ("" : String).data = [] := rfl
  simp [goToUpper, he] at hd
  simp [hd, he]

/-- A string with an underscore glued in the middle is nonempty. -/
theorem append_underscore_ne (a b : String) : a ++ "_" ++ b ≠ "" := by
  intro h
  have hd := congrArg String.data h
  have hu : ("_" : String).data = ['_'] := rfl
  have he : ("" : String).data = [] := rfl
  simp [String.data_append, hu, he] at hd

/-- Uppercasing absorbs an already-uppercased left part. -/
theorem goToUpper_absorb_left (x y : String) :
    goToUpper (goToUpper x ++ y) = goToUpper (x ++ y) := by
  rw [goToUpper_append, goToUpper_goToUpper, ← goToUpper_append]

/-- Uppercasing absorbs an already-uppercased right part. -/
theorem goToUpper_absorb_right (x y : String) :
    goToUpper (x ++ goToUpper y) = goToUpper (x ++ y) := by
  rw [goToUpper_append, goToUpper_goToUpper, ← goToUpper_append]

/-- String concatenation is associative. -/
theorem string_append_assoc (a b c : String) :
    a ++ b ++ c = a ++ (b ++ c) := by
  apply String.ext
  simp [String.data_append]

/-- Unfolding of `composeKey` under a nonempty accumulated key. -/
theorem composeKey_of_ne {p : String} (k : String) (hp : p ≠ "") :
    composeKey p k = goToUpper (p ++ "_" ++ k) := by
  simp [composeKey, hp]

/-- Claim C2: whenever the deployment mode (read afresh from the
environment at the start of the call and lowercased) is neither
"production" nor "prod", `checkEnvStrict` returns `none` (Ok) for every
configuration value — even one with missing environment-mandatory
leaves. -/
theorem checkEnvStrict_nonproduction_ok
    (getenv : String → String) (appName : String) (cfg : GoValue)
    (h1 : deploymentMode getenv ≠ "production")
    (h2 : deploymentMode getenv ≠ "prod") :
    checkEnvStrict getenv appName cfg = none := by
  simp [checkEnvStrict, h1, h2]

/-- Witness for C2: `GO_ENV=DEV` lowercases to "dev", and the audit
accepts the password schema although `MYAPP_PASSWORD` is unset. -/
theorem checkEnvStrict_nonproduction_ok_witness :
    deploymentMode devEnv = "dev"
      ∧ devEnv "MYAPP_PASSWORD" = ""
      ∧ collectViolations devEnv "myapp" (derefTop passwordOnlyCfg) ≠ []
      ∧ checkEnvStrict devEnv "myapp" passwordOnlyCfg = none :=
  ⟨by decide, by decide, by decide,
    checkEnvStrict_nonproduction_ok devEnv "myapp" passwordOnlyCfg
      (by decide) (by decide)⟩

/-- Claim C10: the deployment signal is read from `GO_ENV` first and
`APP_ENV` is consulted only when `GO_ENV` is empty: a nonempty,
non-production `GO_ENV` makes the audit return Ok regardless of
`APP_ENV`. -/
theorem checkEnvStrict_goenv_priority
    (getenv : String → String) (appName : String) (cfg : GoValue)
    (h0 : getenv "GO_ENV" ≠ "")
    (h1 : goToLower (getenv "GO_ENV") ≠ "production")
    (h2 : goToLower (getenv "GO_ENV") ≠ "prod") :
    checkEnvStrict getenv appName cfg = none := by
  have hmode : deploymentMode getenv = goToLower (getenv "GO_ENV") := by
    simp [deploymentMode, h0]
  simp [checkEnvStrict, hmode, h1, h2]

/-- Witness for C10: `GO_ENV=dev` wins over `APP_ENV=production`, and the
audit accepts the schema although `MYAPP_PASSWORD` is unset. -/
theorem checkEnvStrict_goenv_priority_witness :
    devOverrideEnv "GO_ENV" = "dev"
      ∧ devOverrideEnv "APP_ENV" = "production"
      ∧ devOverrideEnv "MYAPP_PASSWORD" = ""
      ∧ checkEnvStrict devOverrideEnv "myapp" passwordOnlyCfg = none :=
  ⟨by decide, by decide, by decide,
    checkEnvStrict_goenv_priority devOverrideEnv "myapp" passwordOnlyCfg
      (by decide) (by decide) (by decide)⟩

/-- Claim C9: a field with no naming annotations resolves to its raw
identifier; `resolveKeyName` is a total function, so resolution never
fails or becomes ambiguous. -/
theorem resolveKeyName_fallback (f : GoField)
    (h1 : f.tag.mapstructure = "") (h2 : f.tag.yaml = "")
    (h3 : f.tag.json = "") (h4 : f.tag.toml = "") :
    resolveKeyName f = f.name := by
  simp [resolveKeyName, tagFamilyName, h1, h2, h3, h4]

/-- Witness for C9 on the annotation-free field `Debug`. -/
theorem resolveKeyName_fallback_witness :
    noTagField.tag.mapstructure = ""
      ∧ resolveKeyName noTagField = noTagField.name
      ∧ resolveKeyName noTagField = "Debug" :=
  ⟨by decide,
    resolveKeyName_fallback noTagField (by decide) (by decide) (by decide)
      (by decide),
    by decide⟩

/-- Counterexample to claim C3 as stated: `optionsOnlyField` has a
`mapstructure` annotation (`",omitempty"`), but `resolveKeyName` does not
return that annotation's name-before-options (`""`) — it falls through to
the `yaml` family and returns `"db_port"`. -/
theorem resolveKeyName_mapstructure_unconditional_false :
    optionsOnlyField.tag.mapstructure ≠ ""
      ∧ resolveKeyName optionsOnlyField
          ≠ nameBeforeComma optionsOnlyField.tag.mapstructure
      ∧ resolveKeyName optionsOnlyField = "db_port" := by
  decide

/-- Claim C3 (amended): for every field whose `mapstructure` annotation
has a nonempty name-before-options different from the sentinel `"-"`,
`resolveKeyName` returns that name-before-options, regardless of any
other annotations present. -/
theorem resolveKeyName_mapstructure_priority (f : GoField)
    (h1 : f.tag.mapstructure ≠ "")
    (h2 : nameBeforeComma f.tag.mapstructure ≠ "")
    (h3 : nameBeforeComma f.tag.mapstructure ≠ "-") :
    resolveKeyName f = nameBeforeComma f.tag.mapstructure := by
  simp [resolveKeyName, tagFamilyName, h1, h2, h3]

/-- Witness for C3 on the repository test field `User`
(`mapstructure:"db_user" json:"user" yaml:"u"`). -/
theorem resolveKeyName_mapstructure_priority_witness :
    multiTagUserField.tag.mapstructure = "db_user"
      ∧ multiTagUserField.tag.yaml = "u"
      ∧ resolveKeyName multiTagUserField
          = nameBeforeComma multiTagUserField.tag.mapstructure
      ∧ resolveKeyName multiTagUserField = "db_user" :=
  ⟨by decide, by decide,
    resolveKeyName_mapstructure_priority multiTagUserField (by decide)
      (by decide) (by decide),
    by decide⟩

/-- Claim C7: an instance implementing `SelfValidatable` has its own
`Validate()` result returned verbatim, and the declarative rule evaluator
is never invoked — the dispatch result does not depend on the evaluator at
all. -/
theorem validatorDispatch_self_bypasses
    (ruleEvalA ruleEvalB : ConfigInstance → Option String)
    (i : ConfigInstance) (r : Option String)
    (h : i.selfResult = some r) :
    validatorDispatch ruleEvalA i = r
      ∧ validatorDispatch ruleEvalA i = validatorDispatch ruleEvalB i := by
  simp [validatorDispatch, h]

/-- Witness for C7: the failing self-validator's message is returned even
under an always-failing declarative evaluator, and swapping the evaluator
changes nothing. -/
theorem validatorDispatch_self_bypasses_witness :
    selfValidCfg.selfResult = some (some "api_key must be 32 chars")
      ∧ (validatorDispatch failingRuleEval selfValidCfg
            = some "api_key must be 32 chars"
          ∧ validatorDispatch failingRuleEval selfValidCfg
              = validatorDispatch okRuleEval selfValidCfg) :=
  ⟨rfl,
    validatorDispatch_self_bypasses failingRuleEval okRuleEval selfValidCfg
      (some "api_key must be 32 chars") rfl⟩

/-- Claim C4: a field whose highest-priority present naming annotation has
the candidate name `"-"` resolves to Ignored (`""`) regardless of
lower-priority annotations, and the auditor's field loop skips such a
field entirely — no recursion, no environment check. -/
theorem resolveKeyName_dash_ignored (f : GoField) (tagVal : String)
    (h1 : firstNamingTag f.tag = some tagVal)
    (h2 : nameBeforeComma tagVal = "-") :
    resolveKeyName f = ""
      ∧ ∀ (getenv : String → String) (pre : String) (rest : List GoField),
          checkFields getenv pre (f :: rest) = checkFields getenv pre rest := by
  have hres : resolveKeyName f = "" := by
    unfold firstNamingTag at h1
    by_cases hm : f.tag.mapstructure = "" <;>
      by_cases hy : f.tag.yaml = "" <;>
        by_cases hj : f.tag.json = "" <;>
          by_cases ht : f.tag.toml = "" <;>
            simp_all [resolveKeyName, tagFamilyName]
  refine ⟨hres, ?_⟩
  intro getenv pre rest
  obtain ⟨fname, ex, tag, value⟩ := f
  simp [checkFields, hres]

/-- Witness for C4 on the field `Secret` with `mapstructure:"-,omitempty"`
and `yaml`/`json` annotations present. -/
theorem resolveKeyName_dash_ignored_witness :
    firstNamingTag dashField.tag = some "-,omitempty"
      ∧ nameBeforeComma "-,omitempty" = "-"
      ∧ (resolveKeyName dashField = ""
          ∧ ∀ (getenv : String → String) (pre : String)
              (rest : List GoField),
              checkFields getenv pre (dashField :: rest)
                = checkFields getenv pre rest) :=
  ⟨by decide, by decide,
    resolveKeyName_dash_ignored dashField "-,omitempty" (by decide)
      (by decide)⟩

/-- Claim C5: a nil pointer-valued sub-structure field is skipped entirely
without error, whatever its tags; and on the repository's nested-pointer
test value in production, the missing interior strict leaf yields exactly
the violation with the fully composed uppercase key
`MYAPP_SUB_API_KEY`. -/
theorem checkEnvStrict_pointer_subtree :
    (∀ (getenv : String → String) (pre fname : String) (ex : Bool)
        (tag : GoTag) (rest : List GoField),
        checkFields getenv pre (.mk fname ex tag .ptrStructNil :: rest)
          = checkFields getenv pre rest)
      ∧ checkEnvStrict prodSubEnv "myapp" strictConfigValue
          = some ⟨"ApiKey", "api_key", "MYAPP_SUB_API_KEY"⟩ := by
  constructor
  · intro getenv pre fname ex tag rest
    simp [checkFields, recursiveEnvCheck, isStructKind]
  · decide

/-- Claim C6: `composeKey` uppercases a bare key under an empty
accumulated key, joins with a single underscore and uppercases otherwise,
and is associative on nonempty segments — both groupings equal the
flattened uppercased join. -/
theorem composeKey_algebra :
    (∀ k, composeKey "" k = goToUpper k)
      ∧ (∀ p k, p ≠ "" → composeKey p k = goToUpper (p ++ "_" ++ k))
      ∧ ∀ a b c, a ≠ "" → b ≠ "" → c ≠ "" →
          composeKey (composeKey a b) c = composeKey a (composeKey b c)
            ∧ composeKey (composeKey a b) c
                = goToUpper (a ++ "_" ++ b ++ "_" ++ c) := by
  refine ⟨?_, ?_, ?_⟩
  · intro k
    simp [composeKey]
  · intro p k hp
    exact composeKey_of_ne k hp
  · intro a b c ha hb hc
    have hab := append_underscore_ne a b
    have h3 : composeKey (composeKey a b) c
        = goToUpper (a ++ "_" ++ b ++ "_" ++ c) := by
      calc composeKey (composeKey a b) c
          = goToUpper (goToUpper (a ++ "_" ++ b) ++ "_" ++ c) := by
            rw [composeKey_of_ne b ha,
              composeKey_of_ne c (goToUpper_ne_empty hab)]
        _ = goToUpper (a ++ "_" ++ b ++ "_" ++ c) := by
            rw [string_append_assoc (goToUpper (a ++ "_" ++ b)) "_" c,
              goToUpper_absorb_left]
            exact congrArg goToUpper (by
              apply String.ext
              simp [String.data_append])
    have h4 : composeKey a (composeKey b c)
        = goToUpper (a ++ "_" ++ b ++ "_" ++ c) := by
      rw [composeKey_of_ne c hb,
        composeKey_of_ne (goToUpper (b ++ "_" ++ c)) ha,
        goToUpper_absorb_right]
      exact congrArg goToUpper (by
        apply String.ext
        simp [String.data_append])
    exact ⟨h3.trans h4.symm, h3⟩

/-- Witness for C6 at the segments of the nested test key. -/
theorem composeKey_algebra_witness :
    ("myapp" : String) ≠ ""
      ∧ ("sub" : String) ≠ ""
      ∧ ("api_key" : String) ≠ ""
      ∧ (composeKey (composeKey "myapp" "sub") "api_key"
            = composeKey "myapp" (composeKey "sub" "api_key")
          ∧ composeKey (composeKey "myapp" "sub") "api_key"
              = goToUpper ("myapp" ++ "_" ++ "sub" ++ "_" ++ "api_key"))
      ∧ composeKey (composeKey "myapp" "sub") "api_key"
          = "MYAPP_SUB_API_KEY" :=
  ⟨by decide, by decide, by decide,
    composeKey_algebra.2.2 "myapp" "sub" "api_key" (by decide) (by decide)
      (by decide),
    by decide⟩

/-- The `toml` block of the registered callback agrees with the
corresponding `tagFamilyName` block of the auditor. -/
theorem tagNameToml_eq (fld : GoField) :
    tagNameToml fld = (tagFamilyName fld.tag.toml).getD fld.name := by
  unfold tagNameToml tagFamilyName
  by_cases h : fld.tag.toml = "" <;> simp [h]
  split_ifs <;> simp_all

/-- The `json` block of the registered callback agrees with the
corresponding `tagFamilyName` block of the auditor. -/
theorem tagNameJson_eq (fld : GoField) :
    tagNameJson fld = (tagFamilyName fld.tag.json).getD (tagNameToml fld) := by
  unfold tagNameJson tagFamilyName
  by_cases h : fld.tag.json = "" <;> simp [h]
  split_ifs <;> simp_all

/-- The `yaml` block of the registered callback agrees with the
corresponding `tagFamilyName` block of the auditor. -/
theorem tagNameYaml_eq (fld : GoField) :
    tagNameYaml fld = (tagFamilyName fld.tag.yaml).getD (tagNameJson fld) := by
  unfold tagNameYaml tagFamilyName
  by_cases h : fld.tag.yaml = "" <;> simp [h]
  split_ifs <;> simp_all

/-- Claim C8: the tag-name callback registered by `validator.New`
computes exactly the same name as the auditor's `resolveKeyName` on every
field — same priority order, same name-before-options extraction, same
`"-"`-to-ignored mapping. -/
theorem tagNameFunc_eq_resolveKeyName (fld : GoField) :
    tagNameFunc fld = resolveKeyName fld := by
  have h0 : tagNameFunc fld
      = (tagFamilyName fld.tag.mapstructure).getD (tagNameYaml fld) := by
    unfold tagNameFunc tagFamilyName
    by_cases h : fld.tag.mapstructure = "" <;> simp [h]
    split_ifs <;> simp_all
  rw [h0, tagNameYaml_eq, tagNameJson_eq, tagNameToml_eq]
  rfl

/-- Claim C1: in production mode the strict audit returns exactly the
first entry of the declaration-order violation list — a `Violation`
carrying the field's raw identifier, resolved key and fully qualified
lookup name — so at most one missing field is ever reported, every
collected violation names a key whose lookup was empty, and the audit is
Ok exactly when that list is empty (in particular when every strict
variable is set to a non-empty string). -/
theorem checkEnvStrict_production_first_violation
    (getenv : String → String) (appName : String) (cfg : GoValue)
    (h : deploymentMode getenv = "production"
      ∨ deploymentMode getenv = "prod") :
    checkEnvStrict getenv appName cfg
        = (collectViolations getenv appName (derefTop cfg)).head?
      ∧ ∀ viol ∈ collectViolations getenv appName (derefTop cfg),
          getenv viol.envKey = "" := by
  constructor
  · rcases h with h | h <;>
      simp [checkEnvStrict, h, recursiveEnvCheck_eq_head]
  · exact collectViolations_envKey getenv appName (derefTop cfg)

/-- Witness for C1: with `GO_ENV=production` and `MYAPP_PASSWORD` unset
the audit reports exactly `MYAPP_PASSWORD`; with it set to `secret123`
the audit is Ok. -/
theorem checkEnvStrict_production_first_violation_witness :
    (deploymentMode prodEnvUnset = "production"
        ∨ deploymentMode prodEnvUnset = "prod")
      ∧ (checkEnvStrict prodEnvUnset "myapp" passwordOnlyCfg
            = (collectViolations prodEnvUnset "myapp"
                (derefTop passwordOnlyCfg)).head?
          ∧ ∀ viol ∈ collectViolations prodEnvUnset "myapp"
                (derefTop passwordOnlyCfg),
              prodEnvUnset viol.envKey = "")
      ∧ checkEnvStrict prodEnvUnset "myapp" passwordOnlyCfg
          = some ⟨"Password", "password", "MYAPP_PASSWORD"⟩
      ∧ checkEnvStrict prodEnvSet "myapp" passwordOnlyCfg = none :=
  ⟨Or.inl (by decide),
    checkEnvStrict_production_first_violation prodEnvUnset "myapp"
      passwordOnlyCfg (Or.inl (by decide)),
    by decide, by decide⟩
